import Mathlib

/-!
# StaleEngine — verification of the normalization & classification pipeline

A shallow embedding of `src/main.py` (the listing normalization and
signal-classification pipeline) together with proofs about it.

Modelling conventions:
* Python values flowing through the pipeline are modelled by the inductive
  type `Json` (JSON-like data: `None`, booleans, integers, strings, lists,
  dicts).  Floating-point numbers are out of scope; upstream numbers are
  modelled as integers.
* Python's dynamic failures (`AttributeError`, `TypeError`, ...) are modelled
  with `Except PyErr`; a function that cannot raise is a plain function.
* Machine-independent string algorithms are written over `List Char` so that
  every definition reduces in the kernel.
-/

set_option maxHeartbeats 1000000
set_option maxRecDepth 40000

namespace StaleEngine

/-- JSON-like Python values handled by the pipeline. -/
inductive Json where
  | null : Json
  | bool : Bool → Json
  | int : Int → Json
  | str : String → Json
  | arr : List Json → Json
  | obj : List (String × Json) → Json

/-- The Python exception kinds the pipeline can raise. -/
inductive PyErr where
  | attributeError : PyErr
  | typeError : PyErr
  | valueError : PyErr
  | keyError : PyErr
deriving DecidableEq

/-- Python truthiness: `None`, `False`, `0`, `""`, `[]`, `{}` are falsy. -/
def truthy : Json → Bool
  | .null => false
  | .bool b => b
  | .int n => n != 0
  | .str s => s.data ≠ []
  | .arr [] => false
  | .arr (_ :: _) => true
  | .obj [] => false
  | .obj (_ :: _) => true

/-- First binding of key `k` in a dict's association list. -/
def lookupKey (kvs : List (String × Json)) (k : String) : Option Json :=
  match kvs with
  | [] => none
  | (k', v) :: rest => if k' = k then some v else lookupKey rest k

/-- Models `d.get(k, default)` on a dict: the stored value (even `None`) if the key
is present, else the default. -/
def dictGetD (kvs : List (String × Json)) (k : String) (dflt : Json) : Json :=
  match lookupKey kvs k with
  | some v => v
  | none => dflt

/-- Models `d.get(k)` on a dict (default `None`). -/
def dictGet (kvs : List (String × Json)) (k : String) : Json :=
  dictGetD kvs k .null

/-- Models `v.get(k, default)` on an arbitrary value: raises `AttributeError`
unless `v` is a dict. -/
def jsonGetD (v : Json) (k : String) (dflt : Json) : Except PyErr Json :=
  match v with
  | .obj kvs => .ok (dictGetD kvs k dflt)
  | _ => .error .attributeError

/-- Models `v[k]` subscription with a string key: `KeyError` when a dict lacks the
key, `TypeError` on every non-dict. -/
def getItem (v : Json) (k : String) : Except PyErr Json :=
  match v with
  | .obj kvs =>
    match lookupKey kvs k with
    | some x => .ok x
    | none => .error .keyError
  | _ => .error .typeError

/-- Python `a or b` (value-returning, short-circuit on a pure right operand). -/
def pyOr (a b : Json) : Json :=
  if truthy a then a else b

/-- Shallow `repr()` used for elements inside container renderings. -/
def pyRepr0 : Json → String
  | .null => "None"
  | .bool true => "True"
  | .bool false => "False"
  | .int n => toString n
  | .str s => "\x27" ++ s ++ "\x27"
  | .arr _ => "[...]"
  | .obj _ => "\x7b...\x7d"

/-- Models Python `str()`.  Scalars are rendered exactly; containers are
rendered to one level of nesting (no theorem below depends on the rendering
of nested containers, and keeping the definition non-recursive keeps every
pipeline definition kernel-computable). -/
def pyStr : Json → String
  | .str s => s
  | .arr xs => "[" ++ String.intercalate ", " (xs.map pyRepr0) ++ "]"
  | .obj kvs =>
      "\x7b" ++
        String.intercalate ", " (kvs.map (fun kv => "\x27" ++ kv.1 ++ "\x27: " ++ pyRepr0 kv.2)) ++
      "\x7d"
  | v => pyRepr0 v

/-- ASCII lower-casing of one character (models `str.lower` on the ASCII
range, which is all the pipeline's keyword matching needs). -/
def lowerChar (c : Char) : Char :=
  if 'A' ≤ c ∧ c ≤ 'Z' then Char.ofNat (c.toNat + 32) else c

/-- Models Python `s.lower()`. -/
def pyLower (s : String) : String :=
  String.mk (s.data.map lowerChar)

/-- Does `needle` occur as a contiguous substring of `haystack`?
Models Python's `needle in haystack` on strings. -/
def listContainsSub (haystack needle : List Char) : Bool :=
  (List.range (haystack.length + 1)).any (fun i => needle.isPrefixOf (haystack.drop i))

/-- String-level wrapper for `listContainsSub`. -/
def strContains (haystack needle : String) : Bool :=
  listContainsSub haystack.data needle.data

/-- Models Python `s.startswith(prefix)` on strings. -/
def strStartsWith (s pre : String) : Bool :=
  pre.data.isPrefixOf s.data

/-- Splits a character list at `'.'` separators (models `key_path.split('.')`
for the dot-notation paths used by `get_nested_value`). -/
def splitDots : List Char → List String
  | [] => [""]
  | c :: cs =>
    match splitDots cs with
    | [] => [""]
    | p :: ps => if c = '.' then "" :: p :: ps else (String.mk (c :: p.data)) :: ps

/-- The function `get_nested_value(data, key_path, default)` from `src/main.py`: walk the
dot-separated path with subscription, returning `default` on any
`KeyError`/`TypeError`. -/
def get_nested_value (data : Json) (key_path : String) (dflt : Json) : Json :=
  go (splitDots key_path.data) data
where
  go : List String → Json → Json
  | [], v => v
  | k :: ks, v =>
    match getItem v k with
    | .ok v' => go ks v'
    | .error _ => dflt

/-! ## Dates: a model of `datetime` as used by `calculate_days_on_market` -/

/-- A `datetime.datetime` value (proleptic Gregorian calendar, as CPython). -/
structure DateTime where
  year : Nat
  month : Nat
  day : Nat
  hour : Nat
  minute : Nat
  second : Nat

/-- Gregorian leap-year test. -/
def isLeap (y : Nat) : Bool :=
  (y % 4 = 0 ∧ y % 100 ≠ 0) ∨ y % 400 = 0

/-- Length of month `m` (1-based) in year `y`. -/
def monthLen (y : Nat) (m : Nat) : Nat :=
  List.getD [31, if isLeap y then 29 else 28, 31, 30, 31, 30, 31, 31, 30, 31, 30, 31] (m - 1) 0

/-- Days in the years before year `y` (for `y ≥ 1`). -/
def daysBeforeYear (y : Nat) : Nat :=
  365 * (y - 1) + ((y - 1) / 4 + (y - 1) / 400 - (y - 1) / 100)

/-- Days in year `y` before month `m` (1-based). -/
def daysBeforeMonth (y : Nat) (m : Nat) : Nat :=
  ((List.range (m - 1)).map (fun i => monthLen y (i + 1))).sum

/-- Ordinal day number of a datetime's date (as CPython's `_ymd2ord`). -/
def toOrdinal (dt : DateTime) : Nat :=
  daysBeforeYear dt.year + daysBeforeMonth dt.year dt.month + dt.day

/-- A datetime as a count of seconds (for `timedelta` arithmetic). -/
def toSeconds (dt : DateTime) : Int :=
  86400 * (toOrdinal dt : Int) + 3600 * (dt.hour : Int) + 60 * (dt.minute : Int) + (dt.second : Int)

/-- Models `(a - b).days`; `timedelta.days` floors toward negative infinity. -/
def daysBetween (a b : DateTime) : Int :=
  Int.fdiv (toSeconds a - toSeconds b) 86400

/-! ### A model of `datetime.strptime` for the pipeline's three formats

CPython's `strptime` matches each directive with a regular expression
(`%Y` is exactly four digits; `%m`, `%d`, `%H`, `%M`, `%S` are one or two
digits constrained to their valid ranges, preferring the two-digit match),
requires the whole input and the whole format to be consumed, and then
validates the fields through the `datetime` constructor.  A format string
ending in a lone `%` raises `ValueError`. -/

/-- Numeric value of a digit character. -/
def digitVal (c : Char) : Nat := c.toNat - 48

/-- Greedy one-or-two-digit directive match: prefer two digits when their
value passes `valid2`, fall back to one digit when it passes `valid1`. -/
def parse2or1 (cs : List Char) (valid2 valid1 : Nat → Bool) :
    Option (Nat × List Char) :=
  match cs with
  | c1 :: c2 :: rest =>
    if c1.isDigit then
      if c2.isDigit then
        let v := digitVal c1 * 10 + digitVal c2
        if valid2 v then some (v, rest)
        else if valid1 (digitVal c1) then some (digitVal c1, c2 :: rest) else none
      else if valid1 (digitVal c1) then some (digitVal c1, c2 :: rest) else none
    else none
  | [c1] => if c1.isDigit ∧ valid1 (digitVal c1) then some (digitVal c1, []) else none
  | [] => none

/-- The directive `%Y`: exactly four digits. -/
def parseYear4 (cs : List Char) : Option (Nat × List Char) :=
  match cs with
  | c1 :: c2 :: c3 :: c4 :: rest =>
    if c1.isDigit ∧ c2.isDigit ∧ c3.isDigit ∧ c4.isDigit then
      some (digitVal c1 * 1000 + digitVal c2 * 100 + digitVal c3 * 10 + digitVal c4, rest)
    else none
  | _ => none

/-- Partially-parsed `strptime` fields, with CPython's defaults
(year 1900, month 1, day 1, midnight). -/
structure StrpFields where
  year : Nat := 1900
  month : Nat := 1
  day : Nat := 1
  hour : Nat := 0
  minute : Nat := 0
  second : Nat := 0

/-- Run a format (as its character list) against an input character list.
Both must be consumed entirely; a trailing lone `%` fails. -/
def runFormat : List Char → List Char → StrpFields → Option StrpFields
  | [], [], acc => some acc
  | [], _ :: _, _ => none
  | ['%'], _, _ => none
  | '%' :: d :: fs, cs, acc =>
    match d with
    | 'Y' =>
      match parseYear4 cs with
      | some (v, rest) => runFormat fs rest { acc with year := v }
      | none => none
    | 'm' =>
      match parse2or1 cs (fun v => 1 ≤ v ∧ v ≤ 12) (fun v => 1 ≤ v) with
      | some (v, rest) => runFormat fs rest { acc with month := v }
      | none => none
    | 'd' =>
      match parse2or1 cs (fun v => 1 ≤ v ∧ v ≤ 31) (fun v => 1 ≤ v) with
      | some (v, rest) => runFormat fs rest { acc with day := v }
      | none => none
    | 'H' =>
      match parse2or1 cs (fun v => v ≤ 23) (fun _ => true) with
      | some (v, rest) => runFormat fs rest { acc with hour := v }
      | none => none
    | 'M' =>
      match parse2or1 cs (fun v => v ≤ 59) (fun _ => true) with
      | some (v, rest) => runFormat fs rest { acc with minute := v }
      | none => none
    | 'S' =>
      match parse2or1 cs (fun v => v ≤ 59) (fun _ => true) with
      | some (v, rest) => runFormat fs rest { acc with second := v }
      | none => none
    | _ => none
  | f :: fs, c :: cs, acc => if f = c then runFormat fs cs acc else none
  | _ :: _, [], _ => none

/-- The `datetime(...)` constructor's validation (`MINYEAR = 1`,
day within the month). -/
def mkDateTime (f : StrpFields) : Option DateTime :=
  if 1 ≤ f.year ∧ 1 ≤ f.month ∧ f.month ≤ 12 ∧ 1 ≤ f.day ∧ f.day ≤ monthLen f.year f.month then
    some ⟨f.year, f.month, f.day, f.hour, f.minute, f.second⟩
  else none

/-- Models `datetime.strptime(s, fmt)` as an `Option`. -/
def strptime (s fmt : List Char) : Option DateTime :=
  match runFormat fmt s {} with
  | some f => mkDateTime f
  | none => none

/-- The three formats tried by `calculate_days_on_market`, in order. -/
def dateFormats : List String :=
  ["%Y-%m-%dT%H:%M:%SZ", "%Y-%m-%d", "%Y-%m-%dT%H:%M:%S"]

/-- The parsing loop of `calculate_days_on_market`: each format is truncated
to the length of the *original* string (the `fmt[:len(list_date_str)]`
quirk), run against the first 19 characters of the string, and the first
success wins. -/
def parseListDate (s : String) : Option DateTime :=
  let cs := s.data.take 19
  let n := s.data.length
  (dateFormats.map (fun fmt => strptime cs (fmt.data.take n))).foldr
    (fun r acc => match r with | some d => some d | none => acc) none

/-- The function `calculate_days_on_market` from `src/main.py`, with the ambient
`datetime.now()` passed explicitly as `now`. -/
def calculate_days_on_market (now : DateTime) (list_date_str : String) : Int :=
  if list_date_str.data = [] then 0
  else
    match parseListDate list_date_str with
    | some d => daysBetween now d
    | none => 0

/-! ## `normalize_property` -/

/-- The canonical shape produced by `normalize_property` (one field per key
of the returned dict, in source order). -/
structure NormalizedListing where
  id : Json
  address : Json
  city : Json
  state : Json
  zip : Json
  price : Json
  bedrooms : Json
  bathrooms : Json
  sqft : Json
  property_type : Json
  days_on_market : Json
  list_date : Json
  description : Json
  url : Json
  image : Json

/-- The address `or`-chain of `normalize_property` (lines 206–211):
`address` / `location.address.line` / `streetAddress` / `f"{street} {city}"`.
The nested lookups raise `AttributeError` when `location` (or its
`address`) is a truthy non-dict. -/
def resolveAddressRaw (kvs : List (String × Json)) : Except PyErr Json :=
  if truthy (dictGet kvs "address") then .ok (dictGet kvs "address")
  else
    match jsonGetD (dictGetD kvs "location" (.obj [])) "address" (.obj []) with
    | .error e => .error e
    | .ok sub =>
      match jsonGetD sub "line" .null with
      | .error e => .error e
      | .ok line =>
        .ok (pyOr line (pyOr (dictGet kvs "streetAddress")
          (.str (pyStr (dictGetD kvs "street" (.str "")) ++ " " ++
                 pyStr (dictGetD kvs "city" (.str ""))))))

/-- The `isinstance(address, dict)` re-resolution (lines 213–214). -/
def fixDictAddress : Json → Json
  | .obj akvs =>
    pyOr (dictGet akvs "line")
      (.str (pyStr (dictGetD akvs "street" (.str "")) ++ " " ++
             pyStr (dictGetD akvs "city" (.str ""))))
  | v => v

/-- Full address resolution (lines 206–214). -/
def resolveAddress (kvs : List (String × Json)) : Except PyErr Json :=
  match resolveAddressRaw kvs with
  | .error e => .error e
  | .ok a => .ok (fixDictAddress a)

/-- The price `or`-chain of `normalize_property` (lines 216–222). -/
def resolvePriceRaw (kvs : List (String × Json)) : Json :=
  pyOr (dictGet kvs "price") (pyOr (dictGet kvs "list_price")
    (pyOr (dictGet kvs "listPrice")
      (pyOr (get_nested_value (.obj kvs) "price_raw" .null) (.int 0))))

/-- Characters of `s` that are digits (`filter(str.isdigit, price)`,
modelled on the ASCII range). -/
def stripDigits (s : String) : List Char :=
  s.data.filter Char.isDigit

/-- Value of a digit string. -/
def digitsToNat (cs : List Char) : Nat :=
  cs.foldl (fun a c => 10 * a + digitVal c) 0

/-- The string handling of the price (lines 225–226):
`int(''.join(filter(str.isdigit, price)) or 0)` when the value is a string,
any other value unchanged. -/
def priceParse (p : Json) : Json :=
  match p with
  | .str s =>
    let ds := stripDigits s
    .int (if ds = [] then 0 else (digitsToNat ds : Int))
  | v => v

/-- The direct days-on-market `or`-chain (lines 228–233). -/
def resolveDaysRaw (kvs : List (String × Json)) : Json :=
  pyOr (dictGet kvs "days_on_market") (pyOr (dictGet kvs "daysOnMarket")
    (pyOr (dictGet kvs "dom") (.int 0)))

/-- The list-date `or`-chain (line 237). -/
def resolveListDate (kvs : List (String × Json)) : Json :=
  pyOr (dictGet kvs "list_date") (pyOr (dictGet kvs "listDate") (dictGet kvs "listed_date"))

/-- Full days-on-market resolution (lines 228–239): the direct chain, and
when it is falsy, `calculate_days_on_market(str(list_date))` for a truthy
list date. -/
def resolveDays (now : DateTime) (kvs : List (String × Json)) : Json :=
  let d := resolveDaysRaw kvs
  if truthy d then d
  else
    let ld := resolveListDate kvs
    if truthy ld then .int (calculate_days_on_market now (pyStr ld)) else d

/-- The description `or`-chain (lines 242–247). -/
def resolveDescriptionRaw (kvs : List (String × Json)) : Json :=
  pyOr (dictGet kvs "description") (pyOr (dictGet kvs "text")
    (pyOr (get_nested_value (.obj kvs) "description.text" .null) (.str "")))

/-- The URL `or`-chain (lines 250–256). -/
def resolveUrlRaw (kvs : List (String × Json)) : Json :=
  pyOr (dictGet kvs "url") (pyOr (dictGet kvs "property_url")
    (pyOr (dictGet kvs "permalink") (pyOr (dictGet kvs "rdc_web_url") (.str ""))))

/-- Models `v.startswith(pre)`: raises `AttributeError` on non-strings. -/
def pyStartswith (v : Json) (pre : String) : Except PyErr Bool :=
  match v with
  | .str s => .ok (strStartsWith s pre)
  | _ => .error .attributeError

/-- URL resolution (lines 250–258): the chain, then the
`https://www.realtor.com` prefix for truthy values not starting with
`"http"`. -/
def resolveUrl (kvs : List (String × Json)) : Except PyErr Json :=
  let u := resolveUrlRaw kvs
  if truthy u then
    match pyStartswith u "http" with
    | .error e => .error e
    | .ok true => .ok u
    | .ok false => .ok (.str ("https://www.realtor.com" ++ pyStr u))
  else .ok u

/-- Line 273, `description[:500] if description else None`: slicing is
defined on strings and lists, raises `TypeError` on other truthy values. -/
def sliceDescription (d : Json) : Except PyErr Json :=
  if truthy d then
    match d with
    | .str s => .ok (.str (String.mk (s.data.take 500)))
    | .arr xs => .ok (.arr (xs.take 500))
    | _ => .error .typeError
  else .ok .null

/-- The image entry (line 275).  By Python operator precedence it parses as
`(prop.get("photo") or prop.get("primary_photo", {}).get("href"))
 if isinstance(prop.get("primary_photo"), dict) else prop.get("primary_photo")`. -/
def resolveImage (kvs : List (String × Json)) : Json :=
  match dictGet kvs "primary_photo" with
  | .obj pkvs => pyOr (dictGet kvs "photo") (dictGetD pkvs "href" .null)
  | v => v

/-- The identifier entry (line 261). -/
def resolveId (kvs : List (String × Json)) : Json :=
  pyOr (dictGet kvs "property_id") (pyOr (dictGet kvs "zpid") (dictGet kvs "id"))

/-- The record literal returned by `normalize_property` (lines 260–276),
parameterized by the three entries whose computation can raise. -/
def buildListing (now : DateTime) (kvs : List (String × Json))
    (address url descSliced : Json) : NormalizedListing :=
  { id := resolveId kvs
    address := address
    city := pyOr (dictGet kvs "city") (get_nested_value (.obj kvs) "location.address.city" .null)
    state := pyOr (dictGet kvs "state") (get_nested_value (.obj kvs) "location.address.state_code" .null)
    zip := pyOr (dictGet kvs "postal_code") (pyOr (dictGet kvs "zip")
      (get_nested_value (.obj kvs) "location.address.postal_code" .null))
    price := priceParse (resolvePriceRaw kvs)
    bedrooms := pyOr (dictGet kvs "beds") (pyOr (dictGet kvs "bedrooms")
      (get_nested_value (.obj kvs) "description.beds" .null))
    bathrooms := pyOr (dictGet kvs "baths") (pyOr (dictGet kvs "bathrooms")
      (get_nested_value (.obj kvs) "description.baths" .null))
    sqft := pyOr (dictGet kvs "sqft") (pyOr (dictGet kvs "livingArea")
      (get_nested_value (.obj kvs) "description.sqft" .null))
    property_type := pyOr (dictGet kvs "type") (pyOr (dictGet kvs "propertyType")
      (get_nested_value (.obj kvs) "description.type" .null))
    days_on_market := resolveDays now kvs
    list_date := pyOr (dictGet kvs "list_date") (dictGet kvs "listDate")
    description := descSliced
    url := url
    image := resolveImage kvs }

/-- The function `normalize_property` from `src/main.py` (lines 203–276), with
`datetime.now()` passed explicitly as `now`.  Calling it on a non-dict
raises `AttributeError` at the first `.get`.  Raises propagate in source
order: address resolution, then URL resolution, then description slicing. -/
def normalize_property (now : DateTime) (prop : Json) : Except PyErr NormalizedListing :=
  match prop with
  | .obj kvs =>
    match resolveAddress kvs with
    | .error e => .error e
    | .ok address =>
      match resolveUrl kvs with
      | .error e => .error e
      | .ok url =>
        match sliceDescription (resolveDescriptionRaw kvs) with
        | .error e => .error e
        | .ok descSliced => .ok (buildListing now kvs address url descSliced)
  | _ => .error .attributeError

/-! ## Classifiers -/

/-- The module-level distress keyword list (lines 59–64), in source order. -/
def DISTRESS_KEYWORDS : List String :=
  ["probate", "as-is", "as is", "tlc", "motivated", "fixer",
   "handyman", "bank owned", "reo", "foreclosure", "estate sale",
   "investor", "cash only", "needs work", "potential", "must sell",
   "distressed", "below market", "must see", "bring offers"]

/-- The constant `DEFAULT_STALE_DAYS` (line 56). -/
def DEFAULT_STALE_DAYS : Int := 90

/-- A classified lead: the normalized listing plus the `signal` tag and,
for distress leads, the `matched_keywords` entry (stale leads never carry
matched keywords; the absent dict key is modelled as `[]`). -/
structure Lead where
  listing : NormalizedListing
  signal : String
  matched_keywords : List String

/-- Python `a >= b` for a dynamic left operand against an int: ints and
bools compare numerically, everything else raises `TypeError`. -/
def pyGeInt (a : Json) (b : Int) : Except PyErr Bool :=
  match a with
  | .int n => .ok (decide (n ≥ b))
  | .bool t => .ok (decide ((if t then (1 : Int) else 0) ≥ b))
  | _ => .error .typeError

/-- The function `extract_stale_leads` from `src/main.py` (lines 279–291): normalize each
property and keep, in input order, those with `days_on_market >= stale_days`,
tagged `"STALE"`. -/
def extract_stale_leads (now : DateTime) (properties : List Json) (stale_days : Int) :
    Except PyErr (List Lead) :=
  match properties with
  | [] => .ok []
  | p :: ps =>
    match normalize_property now p with
    | .error e => .error e
    | .ok n =>
      match pyGeInt n.days_on_market stale_days with
      | .error e => .error e
      | .ok keep =>
        match extract_stale_leads now ps stale_days with
        | .error e => .error e
        | .ok rest =>
          if keep then .ok ({ listing := n, signal := "STALE", matched_keywords := [] } :: rest)
          else .ok rest

/-- The searchable text of `extract_distress_signals` (lines 302–305):
`" ".join([str(address), str(description)]).lower()` over the *normalized*
record (so the description is the 500-character truncation). -/
def searchableText (n : NormalizedListing) : String :=
  pyLower (pyStr n.address ++ " " ++ pyStr n.description)

/-- The keyword comprehension of line 307:
`[kw for kw in DISTRESS_KEYWORDS if kw in searchable]`. -/
def matchedKeywords (n : NormalizedListing) : List String :=
  DISTRESS_KEYWORDS.filter (fun kw => strContains (searchableText n) kw)

/-- The function `extract_distress_signals` from `src/main.py` (lines 294–314): keep, in
input order, the normalized properties whose searchable text contains at
least one keyword, tagged `"DISTRESS"` with the matched keywords. -/
def extract_distress_signals (now : DateTime) (properties : List Json) :
    Except PyErr (List Lead) :=
  match properties with
  | [] => .ok []
  | p :: ps =>
    match normalize_property now p with
    | .error e => .error e
    | .ok n =>
      match extract_distress_signals now ps with
      | .error e => .error e
      | .ok rest =>
        if (matchedKeywords n).isEmpty then .ok rest
        else .ok ({ listing := n, signal := "DISTRESS", matched_keywords := matchedKeywords n } :: rest)

/-! ## The route-level sort and the aggregator -/

/-- The sort key of `leads.sort(key=lambda x: x.get('days_on_market', 0), reverse=True)`. -/
def daysKey (l : Lead) : Json := l.listing.days_on_market

/-- Python `a < b` between two dynamic sort keys: numeric values compare
numerically, strings lexicographically, mixed types raise `TypeError`. -/
def pyLt (a b : Json) : Except PyErr Bool :=
  match a, b with
  | .int m, .int n => .ok (decide (m < n))
  | .int m, .bool t => .ok (decide (m < if t then (1 : Int) else 0))
  | .bool t, .int n => .ok (decide ((if t then (1 : Int) else 0) < n))
  | .bool t, .bool u => .ok (decide ((if t then (1 : Int) else 0) < if u then (1 : Int) else 0))
  | .str s, .str t => .ok (decide (s < t))
  | _, _ => .error .typeError

/-- One insertion step of the stable descending sort: `x` (earlier in the
input) passes over exactly the elements with a strictly greater key, so
among equal keys the earlier element stays first. -/
def insertDesc (x : Lead) : List Lead → Except PyErr (List Lead)
  | [] => .ok [x]
  | y :: ys =>
    match pyLt (daysKey x) (daysKey y) with
    | .error e => .error e
    | .ok true =>
      match insertDesc x ys with
      | .error e => .error e
      | .ok r => .ok (y :: r)
    | .ok false => .ok (x :: y :: ys)

/-- Models `leads.sort(key=lambda x: x.get('days_on_market', 0), reverse=True)`
(lines 368 and 483): CPython's sort is stable, and with `reverse=True` equal
keys keep their input order; this insertion sort has exactly that
specification.  Comparing incomparable keys raises `TypeError`, as in
CPython. -/
def sortLeadsDesc : List Lead → Except PyErr (List Lead)
  | [] => .ok []
  | x :: xs =>
    match sortLeadsDesc xs with
    | .error e => .error e
    | .ok r => insertDesc x r

/-- The lead-building part of the `/find-stale` route (lines 367–368):
extraction followed by the descending stable sort. -/
def find_stale (now : DateTime) (properties : List Json) (stale_days : Int) :
    Except PyErr (List Lead) :=
  match extract_stale_leads now properties stale_days with
  | .error e => .error e
  | .ok leads => sortLeadsDesc leads

/-- Hashability/equality key of a Python value: `None`, numbers (with
`True == 1`, `False == 0`) and strings are hashable; lists and dicts are
not. -/
def pyKey : Json → Option (Option (Int ⊕ String))
  | .null => some none
  | .bool b => some (some (.inl (if b then 1 else 0)))
  | .int n => some (some (.inl n))
  | .str s => some (some (.inr s))
  | .arr _ => none
  | .obj _ => none

/-- Python `==` restricted to hashable values (containers never enter the
id sets below). -/
def pyEq (a b : Json) : Bool :=
  match pyKey a, pyKey b with
  | some x, some y => x = y
  | _, _ => false

/-- Set membership up to Python equality. -/
def memEq (s : List Json) (v : Json) : Bool :=
  s.any (fun w => pyEq w v)

/-- Adding to a Python set, keeping the first representative. -/
def pySetAdd (s : List Json) (v : Json) : List Json :=
  if memEq s v then s else s ++ [v]

/-- Building a Python set from the iteration order of a comprehension;
adding an unhashable value raises `TypeError`. -/
def pySetOf (vs : List Json) : Except PyErr (List Json) :=
  go [] vs
where
  go (acc : List Json) : List Json → Except PyErr (List Json)
  | [] => .ok acc
  | v :: rest =>
    if (pyKey v).isSome then go (pySetAdd acc v) rest
    else .error .typeError

/-- The payload assembled by the `/search` route (lines 490–508); the
`summary` counts are the `stale`/`distress`/`hot` entries. -/
structure CombinedResult where
  total_searched : Nat
  summary_stale : Nat
  summary_distress : Nat
  summary_hot : Nat
  hot_lead_ids : List Json
  stale_leads : List Lead
  distress_leads : List Lead

/-- The core of the `/search` route `combined_search` (lines 480–508):
both extractions, the stale sort, the truthy-id sets, their intersection,
and the summary counts. -/
def combined_search (now : DateTime) (properties : List Json) (stale_days : Int) :
    Except PyErr CombinedResult :=
  match extract_stale_leads now properties stale_days with
  | .error e => .error e
  | .ok stale0 =>
    match extract_distress_signals now properties with
    | .error e => .error e
    | .ok distress =>
      match sortLeadsDesc stale0 with
      | .error e => .error e
      | .ok stale =>
        match pySetOf ((stale.map (fun l => l.listing.id)).filter truthy) with
        | .error e => .error e
        | .ok stale_ids =>
          match pySetOf ((distress.map (fun l => l.listing.id)).filter truthy) with
          | .error e => .error e
          | .ok distress_ids =>
            let hot_ids := stale_ids.filter (fun v => memEq distress_ids v)
            .ok
              { total_searched := properties.length
                summary_stale := stale.length
                summary_distress := distress.length
                summary_hot := hot_ids.length
                hot_lead_ids := hot_ids
                stale_leads := stale
                distress_leads := distress }

/-! ## Specification-side definitions

Definitions used to *state* properties of the pipeline.  They are not part
of the embedding of `src/main.py`; theorems below relate them to it. -/

/-- A fixed reference value for `datetime.now()` used in concrete examples. -/
def refNow : DateTime := ⟨2026, 10, 12, 9, 30, 0⟩

/-- A stale lead as built on line 288–289. -/
def tagStale (n : NormalizedListing) : Lead :=
  { listing := n, signal := "STALE", matched_keywords := [] }

/-- A distress lead as built on lines 310–311. -/
def tagDistress (n : NormalizedListing) : Lead :=
  { listing := n, signal := "DISTRESS", matched_keywords := matchedKeywords n }

/-- Normalization of a whole input list (the common prefix of both
classifiers). -/
def normalizeAll (now : DateTime) : List Json → Except PyErr (List NormalizedListing)
  | [] => .ok []
  | p :: ps =>
    match normalize_property now p with
    | .error e => .error e
    | .ok n =>
      match normalizeAll now ps with
      | .error e => .error e
      | .ok ns => .ok (n :: ns)

/-- Is the value a Python `int`? -/
def isIntB : Json → Bool
  | .int _ => true
  | _ => false

/-- Is the value a Python `str`? -/
def isStrB : Json → Bool
  | .str _ => true
  | _ => false

/-- Is the value a Python `dict`? -/
def isObjB : Json → Bool
  | .obj _ => true
  | _ => false

/-- Integer value of a `Json` integer (only used under an `isIntB`
hypothesis). -/
def jInt : Json → Int
  | .int n => n
  | _ => 0

/-- Does at least one configured keyword occur in the record's searchable
text? -/
def distressHit (n : NormalizedListing) : Bool :=
  DISTRESS_KEYWORDS.any (fun kw => strContains (searchableText n) kw)

/-! ## Elimination lemmas for `normalize_property` -/

theorem normalize_ok_elim {now : DateTime} {kvs : List (String × Json)} {r : NormalizedListing}
    (h : normalize_property now (.obj kvs) = .ok r) :
    ∃ a u d2, resolveAddress kvs = .ok a ∧ resolveUrl kvs = .ok u ∧
      sliceDescription (resolveDescriptionRaw kvs) = .ok d2 ∧
      r = buildListing now kvs a u d2 := by
  simp only [normalize_property] at h
  cases ha : resolveAddress kvs with
  | error e => rw [ha] at h; cases h
  | ok a =>
    rw [ha] at h
    cases hu : resolveUrl kvs with
    | error e => rw [hu] at h; cases h
    | ok u =>
      rw [hu] at h
      cases hd : sliceDescription (resolveDescriptionRaw kvs) with
      | error e => rw [hd] at h; cases h
      | ok d2 =>
        rw [hd] at h
        cases h
        exact ⟨a, u, d2, rfl, rfl, rfl, rfl⟩

theorem normalize_days {now : DateTime} {kvs : List (String × Json)} {r : NormalizedListing}
    (h : normalize_property now (.obj kvs) = .ok r) :
    r.days_on_market = resolveDays now kvs := by
  obtain ⟨a, u, d2, _, _, _, hr⟩ := normalize_ok_elim h
  rw [hr]; rfl

theorem normalize_price {now : DateTime} {kvs : List (String × Json)} {r : NormalizedListing}
    (h : normalize_property now (.obj kvs) = .ok r) :
    r.price = priceParse (resolvePriceRaw kvs) := by
  obtain ⟨a, u, d2, _, _, _, hr⟩ := normalize_ok_elim h
  rw [hr]; rfl

theorem normalize_image {now : DateTime} {kvs : List (String × Json)} {r : NormalizedListing}
    (h : normalize_property now (.obj kvs) = .ok r) :
    r.image = resolveImage kvs := by
  obtain ⟨a, u, d2, _, _, _, hr⟩ := normalize_ok_elim h
  rw [hr]; rfl

theorem normalize_url {now : DateTime} {kvs : List (String × Json)} {r : NormalizedListing}
    (h : normalize_property now (.obj kvs) = .ok r) :
    resolveUrl kvs = .ok r.url := by
  obtain ⟨a, u, d2, _, hu, _, hr⟩ := normalize_ok_elim h
  rw [hr]
  exact hu

theorem normalize_id {now : DateTime} {kvs : List (String × Json)} {r : NormalizedListing}
    (h : normalize_property now (.obj kvs) = .ok r) :
    r.id = resolveId kvs := by
  obtain ⟨a, u, d2, _, _, _, hr⟩ := normalize_ok_elim h
  rw [hr]; rfl

/-! ## Small facts about `or`-chains -/

theorem pyOr_falsy {a b : Json} (h : truthy (pyOr a b) = false) : pyOr a b = b := by
  unfold pyOr at h ⊢
  by_cases ha : truthy a = true
  · rw [if_pos ha] at h
    rw [ha] at h
    exact Bool.noConfusion h
  · rw [if_neg ha]

theorem resolveDaysRaw_falsy {kvs : List (String × Json)}
    (h : truthy (resolveDaysRaw kvs) = false) : resolveDaysRaw kvs = .int 0 := by
  unfold resolveDaysRaw at h ⊢
  have h1 := pyOr_falsy h
  rw [h1] at h ⊢
  have h2 := pyOr_falsy h
  rw [h2] at h ⊢
  exact pyOr_falsy h

theorem resolvePriceRaw_falsy {kvs : List (String × Json)}
    (h : truthy (resolvePriceRaw kvs) = false) : resolvePriceRaw kvs = .int 0 := by
  unfold resolvePriceRaw at h ⊢
  have h1 := pyOr_falsy h
  rw [h1] at h ⊢
  have h2 := pyOr_falsy h
  rw [h2] at h ⊢
  have h3 := pyOr_falsy h
  rw [h3] at h ⊢
  exact pyOr_falsy h

theorem resolveUrlRaw_falsy {kvs : List (String × Json)}
    (h : truthy (resolveUrlRaw kvs) = false) : resolveUrlRaw kvs = .str "" := by
  unfold resolveUrlRaw at h ⊢
  have h1 := pyOr_falsy h
  rw [h1] at h ⊢
  have h2 := pyOr_falsy h
  rw [h2] at h ⊢
  have h3 := pyOr_falsy h
  rw [h3] at h ⊢
  exact pyOr_falsy h

theorem truthy_ne_null {v : Json} (h : truthy v = true) : v ≠ Json.null := by
  intro hv
  rw [hv] at h
  exact absurd h (by simp [truthy])

/-! ## C1 — days-on-market has no millisecond reinterpretation -/

/-- C1 (amended): normalization applies no plausibility-threshold
reinterpretation to the resolved days value — any truthy value from the
direct days `or`-chain passes through unchanged, so a `days_on_market` of
`7776000000` normalizes to `7776000000` (not `90`); `daysOnZillow` is not
among the consulted field names. -/
theorem days_no_millisecond_reinterpretation :
    (∀ now kvs r, normalize_property now (.obj kvs) = .ok r →
      truthy (resolveDaysRaw kvs) = true → r.days_on_market = resolveDaysRaw kvs) ∧
    (normalize_property refNow
      (.obj [("days_on_market", .int 7776000000)])).map (fun r => r.days_on_market) =
      .ok (.int 7776000000) := by
  constructor
  · intro now kvs r h ht
    rw [normalize_days h]
    simp [resolveDays, ht]
  · rfl

/-- C1 witness: concrete application of the pass-through theorem. -/
theorem days_no_millisecond_reinterpretation_witness :
    ∃ r, normalize_property refNow (.obj [("days_on_market", .int 7776000000)]) = .ok r ∧
      r.days_on_market = resolveDaysRaw [("days_on_market", .int 7776000000)] := by
  refine ⟨_, rfl, ?_⟩
  exact days_no_millisecond_reinterpretation.1 refNow _ _ rfl rfl

/-- C1 counterexample: a raw listing whose only time field is
`daysOnZillow = 7776000000` normalizes to `days_on_market = 0`, not `90` —
the claimed millisecond reinterpretation does not exist in the code, and
`daysOnZillow` is never consulted. -/
theorem daysOnZillow_not_reinterpreted :
    (normalize_property refNow (.obj [("daysOnZillow", .int 7776000000)])).map
      (fun r => r.days_on_market) = .ok (.int 0) := rfl

/-! ## C3 — days-on-market is never `None` and defaults to 0 -/

/-- C3 (amended): `days_on_market` is always set and never `None`, and it is
`Json.int 0` whenever the direct days chain is falsy and the listing date is
either absent/falsy or unparseable.  (Non-negativity does NOT hold — see the
counterexample.) -/
theorem days_on_market_never_none :
    ∀ now kvs r, normalize_property now (.obj kvs) = .ok r →
      r.days_on_market ≠ Json.null ∧
      (truthy (resolveDaysRaw kvs) = false →
        (truthy (resolveListDate kvs) = false ∨
          parseListDate (pyStr (resolveListDate kvs)) = none) →
        r.days_on_market = Json.int 0) := by
  intro now kvs r h
  rw [normalize_days h]
  unfold resolveDays
  by_cases hd : truthy (resolveDaysRaw kvs) = true
  · rw [if_pos hd]
    exact ⟨truthy_ne_null hd, fun hf => absurd hd (by simp [hf])⟩
  · rw [if_neg hd]
    have hd' : truthy (resolveDaysRaw kvs) = false := eq_false_of_ne_true hd
    have hz := resolveDaysRaw_falsy hd'
    by_cases hl : truthy (resolveListDate kvs) = true
    · rw [if_pos hl]
      refine ⟨fun hc => Json.noConfusion hc, ?_⟩
      intro _ hor
      rcases hor with hor | hor
      · rw [hor] at hl
        exact Bool.noConfusion hl
      · unfold calculate_days_on_market
        split
        · rfl
        · rw [hor]
    · rw [if_neg hl]
      refine ⟨?_, fun _ _ => hz⟩
      rw [hz]
      exact fun hc => Json.noConfusion hc

/-- C3 witness: on the empty raw listing, `days_on_market` is exactly 0. -/
theorem days_on_market_never_none_witness :
    ∃ r, normalize_property refNow (.obj []) = .ok r ∧ r.days_on_market = Json.int 0 := by
  refine ⟨_, rfl, ?_⟩
  exact (days_on_market_never_none refNow [] _ rfl).2 rfl (Or.inl rfl)

/-- C3 counterexample: a negative upstream `days_on_market` value passes
through normalization unchanged, so `days_on_market` can be negative. -/
theorem negative_days_pass_through :
    (normalize_property refNow (.obj [("days_on_market", .int (-5))])).map
      (fun r => r.days_on_market) = .ok (.int (-5)) ∧ (-5 : Int) < 0 :=
  ⟨rfl, by decide⟩

/-! ## C8 — price normalization -/

/-- C8 (amended): a string price is stripped to its digit characters and
parsed, always yielding a non-negative integer (`"$450,000"` becomes
`450000`, digitless strings become `0`); a missing/falsy price chain yields
`0`; but *non-string* upstream values pass through `priceParse` unchanged, so
they need not be non-negative integers (see the counterexample). -/
theorem price_digits_and_default :
    (∀ s : String, ∃ n : Nat, priceParse (.str s) = .int (n : Int)) ∧
    (∀ s : String, stripDigits s = [] → priceParse (.str s) = .int 0) ∧
    (∀ now kvs r, normalize_property now (.obj kvs) = .ok r →
      truthy (resolvePriceRaw kvs) = false → r.price = .int 0) ∧
    (normalize_property refNow (.obj [("price", .str "$450,000")])).map (fun r => r.price) =
      .ok (.int 450000) := by
  refine ⟨?_, ?_, ?_, rfl⟩
  · intro s
    by_cases hs : stripDigits s = []
    · exact ⟨0, by simp [priceParse, hs]⟩
    · exact ⟨digitsToNat (stripDigits s), by simp [priceParse, hs]⟩
  · intro s hs
    simp [priceParse, hs]
  · intro now kvs r h hf
    rw [normalize_price h, resolvePriceRaw_falsy hf]
    rfl

/-- C8 witness: concrete application — an empty raw listing has a falsy
price chain, and its normalized price is 0. -/
theorem price_digits_and_default_witness :
    ∃ r, normalize_property refNow (.obj []) = .ok r ∧ r.price = Json.int 0 := by
  refine ⟨_, rfl, ?_⟩
  exact price_digits_and_default.2.2.1 refNow [] _ rfl rfl

/-- C8 counterexample: a negative integer upstream price passes through
unchanged, so the normalized price is not always non-negative. -/
theorem negative_price_passes_through :
    (normalize_property refNow (.obj [("price", .int (-5))])).map (fun r => r.price) =
      .ok (.int (-5)) ∧ (-5 : Int) < 0 :=
  ⟨rfl, by decide⟩

/-! ## C9 — URL resolution -/

/-- C9 (amended): a truthy resolved URL string that does not start with
`"http"` is prefixed with the fixed host `https://www.realtor.com`; when the
URL chain is falsy (no URL field), the normalized `url` is the empty string
even when the listing has a truthy identifier — no detail URL is synthesized
from the identifier. -/
theorem url_prefix_no_synthesis :
    (∀ kvs s, resolveUrlRaw kvs = .str s → truthy (.str s) = true →
      strStartsWith s "http" = false →
      resolveUrl kvs = .ok (.str ("https://www.realtor.com" ++ s))) ∧
    (∀ now kvs r, normalize_property now (.obj kvs) = .ok r →
      truthy (resolveUrlRaw kvs) = false → r.url = .str "") ∧
    (normalize_property refNow (.obj [("property_id", .str "p1")])).map
      (fun r => (r.id, r.url)) = .ok (.str "p1", .str "") := by
  refine ⟨?_, ?_, rfl⟩
  · intro kvs s hs ht hh
    unfold resolveUrl
    rw [hs]
    simp only [ht, if_true, pyStartswith, hh]
    rfl
  · intro now kvs r h hf
    have hok : resolveUrl kvs = .ok (.str "") := by
      unfold resolveUrl
      simp only [hf, Bool.false_eq_true, if_false]
      rw [resolveUrlRaw_falsy hf]
    have hu := hok.symm.trans (normalize_url h)
    injection hu with hu2
    exact hu2.symm

/-- C9 witness: concrete applications of both universal parts. -/
theorem url_prefix_no_synthesis_witness :
    resolveUrl [("url", .str "/home/123")] =
      .ok (.str ("https://www.realtor.com" ++ "/home/123")) ∧
    ∃ r, normalize_property refNow (.obj [("property_id", .str "p1")]) = .ok r ∧
      r.url = .str "" := by
  constructor
  · exact url_prefix_no_synthesis.1 [("url", .str "/home/123")] "/home/123" rfl rfl rfl
  · refine ⟨_, rfl, ?_⟩
    exact url_prefix_no_synthesis.2.1 refNow [("property_id", .str "p1")] _ rfl rfl

/-- C9 counterexample: a listing with an identifier but no URL field
normalizes to the empty URL — no canonical detail URL is synthesized from
the identifier. -/
theorem url_missing_with_id_yields_empty :
    (normalize_property refNow (.obj [("property_id", .str "p1")])).map
      (fun r => (r.id, r.url)) = .ok (.str "p1", .str "") ∧
    truthy (.str "p1") = true :=
  ⟨rfl, rfl⟩

/-! ## C10 — the image conditional's precedence -/

/-- C10: by Python operator precedence, whenever `primary_photo` is not a
dict (including absent), the normalized `image` is exactly the
`primary_photo` value and a present `photo` field is ignored; in particular
a listing with only a `photo` string normalizes to `image = None`. -/
theorem image_ignores_photo_when_primary_not_dict :
    (∀ now kvs r, normalize_property now (.obj kvs) = .ok r →
      isObjB (dictGet kvs "primary_photo") = false →
      r.image = dictGet kvs "primary_photo") ∧
    (normalize_property refNow (.obj [("photo", .str "x.jpg")])).map (fun r => r.image) =
      .ok .null := by
  refine ⟨?_, rfl⟩
  intro now kvs r h hob
  rw [normalize_image h]
  unfold resolveImage
  cases hv : dictGet kvs "primary_photo" with
  | obj pkvs => rw [hv] at hob; exact absurd hob (by simp [isObjB])
  | null => rfl
  | bool b => rfl
  | int n => rfl
  | str s => rfl
  | arr xs => rfl

/-- C10 witness: concrete application at a listing with only a `photo`
string. -/
theorem image_ignores_photo_witness :
    ∃ r, normalize_property refNow (.obj [("photo", .str "x.jpg")]) = .ok r ∧
      r.image = dictGet [("photo", Json.str "x.jpg")] "primary_photo" := by
  refine ⟨_, rfl, ?_⟩
  exact image_ignores_photo_when_primary_not_dict.1 refNow _ _ rfl rfl

/-! ## C2 — normalization's failure modes -/

/-- Can the value be sliced (`v[:500]`)?  Strings and lists can; other
truthy values raise `TypeError`. -/
def sliceableB : Json → Bool
  | .str _ => true
  | .arr _ => true
  | _ => false

/-- The address path reaches no `.get` on a non-dict: either the flat
`address` field is truthy (short-circuiting the nested lookups), or
`location` (defaulted to `{}`) and its `address` (defaulted to `{}`) are
both dicts. -/
def addressShapeOk (kvs : List (String × Json)) : Bool :=
  truthy (dictGet kvs "address") ||
    (match jsonGetD (dictGetD kvs "location" (.obj [])) "address" (.obj []) with
     | .ok sub => isObjB sub
     | .error _ => false)

/-- The resolved description is falsy or sliceable. -/
def descShapeOk (kvs : List (String × Json)) : Bool :=
  !truthy (resolveDescriptionRaw kvs) || sliceableB (resolveDescriptionRaw kvs)

/-- The resolved URL is falsy or a string. -/
def urlShapeOk (kvs : List (String × Json)) : Bool :=
  !truthy (resolveUrlRaw kvs) || isStrB (resolveUrlRaw kvs)

/-- Sufficient shape conditions under which `normalize_property` cannot
raise. -/
def wellShaped (kvs : List (String × Json)) : Bool :=
  addressShapeOk kvs && descShapeOk kvs && urlShapeOk kvs

theorem resolveAddress_ok_of_shape {kvs : List (String × Json)}
    (h : addressShapeOk kvs = true) : ∃ a, resolveAddress kvs = .ok a := by
  unfold addressShapeOk at h
  unfold resolveAddress resolveAddressRaw
  by_cases ha : truthy (dictGet kvs "address") = true
  · rw [if_pos ha]
    exact ⟨_, rfl⟩
  · rw [if_neg ha]
    rw [Bool.or_eq_true] at h
    rcases h with h | h
    · exact absurd h ha
    · cases hj : jsonGetD (dictGetD kvs "location" (.obj [])) "address" (.obj []) with
      | error e => rw [hj] at h; exact Bool.noConfusion h
      | ok sub =>
        rw [hj] at h
        have h2 : isObjB sub = true := h
        cases sub with
        | obj skvs => exact ⟨_, rfl⟩
        | null => exact Bool.noConfusion h2
        | bool b => exact Bool.noConfusion h2
        | int n => exact Bool.noConfusion h2
        | str s => exact Bool.noConfusion h2
        | arr xs => exact Bool.noConfusion h2

theorem resolveUrl_ok_of_shape {kvs : List (String × Json)}
    (h : urlShapeOk kvs = true) : ∃ u, resolveUrl kvs = .ok u := by
  unfold urlShapeOk at h
  unfold resolveUrl
  by_cases ht : truthy (resolveUrlRaw kvs) = true
  · simp only [ht, if_true]
    rw [Bool.or_eq_true] at h
    rcases h with h | h
    · rw [ht] at h
      exact Bool.noConfusion h
    · cases hu : resolveUrlRaw kvs with
      | str s =>
        simp only [pyStartswith]
        cases hsw : strStartsWith s "http" with
        | true => exact ⟨_, rfl⟩
        | false => exact ⟨_, rfl⟩
      | null => rw [hu] at h; exact Bool.noConfusion h
      | bool b => rw [hu] at h; exact Bool.noConfusion h
      | int n => rw [hu] at h; exact Bool.noConfusion h
      | arr xs => rw [hu] at h; exact Bool.noConfusion h
      | obj okvs => rw [hu] at h; exact Bool.noConfusion h
  · simp only [eq_false_of_ne_true ht, Bool.false_eq_true, if_false]
    exact ⟨_, rfl⟩

theorem sliceDescription_ok_of_shape {kvs : List (String × Json)}
    (h : descShapeOk kvs = true) :
    ∃ d2, sliceDescription (resolveDescriptionRaw kvs) = .ok d2 := by
  unfold descShapeOk at h
  unfold sliceDescription
  by_cases ht : truthy (resolveDescriptionRaw kvs) = true
  · simp only [ht, if_true]
    rw [Bool.or_eq_true] at h
    rcases h with h | h
    · rw [ht] at h
      exact Bool.noConfusion h
    · cases hd : resolveDescriptionRaw kvs with
      | str s => exact ⟨_, rfl⟩
      | arr xs => exact ⟨_, rfl⟩
      | null => rw [hd] at h; exact Bool.noConfusion h
      | bool b => rw [hd] at h; exact Bool.noConfusion h
      | int n => rw [hd] at h; exact Bool.noConfusion h
      | obj okvs => rw [hd] at h; exact Bool.noConfusion h
  · simp only [eq_false_of_ne_true ht, Bool.false_eq_true, if_false]
    exact ⟨_, rfl⟩

/-- C2 (amended): `normalize_property` is *not* no-throw on arbitrary
JSON-like input (see the counterexample: a truthy non-dict `location` makes
it raise `AttributeError`); it does return a `NormalizedListing` for every
input whose location/description/URL values have the shapes the code
expects. -/
theorem normalize_total_on_well_shaped :
    ∀ now kvs, wellShaped kvs = true →
      ∃ r, normalize_property now (.obj kvs) = .ok r := by
  intro now kvs h
  unfold wellShaped at h
  rw [Bool.and_eq_true, Bool.and_eq_true] at h
  obtain ⟨⟨hA, hD⟩, hU⟩ := h
  obtain ⟨a, ha⟩ := resolveAddress_ok_of_shape hA
  obtain ⟨u, hu⟩ := resolveUrl_ok_of_shape hU
  obtain ⟨d2, hd⟩ := sliceDescription_ok_of_shape hD
  refine ⟨buildListing now kvs a u d2, ?_⟩
  simp only [normalize_property, ha, hu, hd]

/-- C2 witness: a well-shaped concrete listing normalizes successfully. -/
theorem normalize_total_on_well_shaped_witness :
    wellShaped [("address", Json.str "1 Main St"), ("price", Json.str "$450,000")] = true ∧
    ∃ r, normalize_property refNow
      (.obj [("address", Json.str "1 Main St"), ("price", Json.str "$450,000")]) = .ok r :=
  ⟨rfl, normalize_total_on_well_shaped refNow _ rfl⟩

/-- C2 counterexample: normalization is not no-throw — a raw listing whose
`location` value is a (truthy) string makes `normalize_property` raise
`AttributeError` at `.get("address", {})`, instead of returning a
`NormalizedListing`. -/
theorem normalize_raises_on_string_location :
    normalize_property refNow (.obj [("location", Json.str "downtown")]) =
      .error .attributeError := rfl

/-! ## C5 — distress selection -/

theorem filter_isEmpty_eq_not_any {α : Type} (p : α → Bool) (l : List α) :
    (l.filter p).isEmpty = !l.any p := by
  induction l with
  | nil => rfl
  | cons a l ih => cases hpa : p a <;> simp [List.filter_cons, List.any_cons, hpa, ih]

theorem matchedKeywords_isEmpty (n : NormalizedListing) :
    (matchedKeywords n).isEmpty = !distressHit n :=
  filter_isEmpty_eq_not_any _ _

theorem extract_distress_cons_ok {now : DateTime} {p : Json} {ps : List Json}
    {n : NormalizedListing} {rest : List Lead}
    (hn : normalize_property now p = .ok n)
    (hr : extract_distress_signals now ps = .ok rest) :
    extract_distress_signals now (p :: ps) =
      if (matchedKeywords n).isEmpty then .ok rest
      else .ok (tagDistress n :: rest) := by
  unfold extract_distress_signals
  rw [hn, hr]
  rfl

/-- C5 (amended): for inputs that normalize successfully, the distress
classifier selects, preserving input order, exactly the normalized listings
whose searchable text — the lower-cased concatenation of the normalized
`address` and the *truncated* (500-character) `description`, not the full
untruncated upstream values nor any status/variable-data field — contains at
least one configured keyword by case-insensitive substring containment, each
selected lead tagged `"DISTRESS"` with its matched keywords. -/
theorem distress_selection_exact :
    ∀ now props ns, normalizeAll now props = .ok ns →
      extract_distress_signals now props = .ok ((ns.filter distressHit).map tagDistress) := by
  intro now props
  induction props with
  | nil =>
    intro ns h
    cases h
    rfl
  | cons p ps ih =>
    intro ns h
    unfold normalizeAll at h
    cases hn : normalize_property now p with
    | error e => rw [hn] at h; cases h
    | ok n =>
      rw [hn] at h
      cases hr : normalizeAll now ps with
      | error e => rw [hr] at h; cases h
      | ok ns' =>
        rw [hr] at h
        cases h
        rw [extract_distress_cons_ok hn (ih ns' hr)]
        cases hhit : distressHit n with
        | true =>
          have hm : (matchedKeywords n).isEmpty = false := by
            rw [matchedKeywords_isEmpty n, hhit]
            rfl
          rw [hm]
          simp only [Bool.false_eq_true, if_false, List.filter_cons, hhit,
            if_true, List.map_cons]
        | false =>
          have hm : (matchedKeywords n).isEmpty = true := by
            rw [matchedKeywords_isEmpty n, hhit]
            rfl
          rw [hm]
          simp only [if_true, List.filter_cons, hhit, Bool.false_eq_true, if_false]

/-- C5 witness: concrete application — one matching and one non-matching
listing; the selection is exactly the matching one, in input order. -/
theorem distress_selection_exact_witness :
    ∃ ns, normalizeAll refNow
        [.obj [("description", Json.str "needs work, bring offers")],
         .obj [("description", Json.str "pristine turnkey home")]] = .ok ns ∧
      extract_distress_signals refNow
        [.obj [("description", Json.str "needs work, bring offers")],
         .obj [("description", Json.str "pristine turnkey home")]] =
        .ok ((ns.filter distressHit).map tagDistress) := by
  refine ⟨_, rfl, ?_⟩
  exact distress_selection_exact refNow _ _ rfl

/-- The 511-character description of the C5 counterexample: 500 filler
characters followed by `" foreclosure"`. -/
def longDesc : String := String.mk (List.replicate 500 'x' ++ (" foreclosure").data)

/-- C5 counterexample: the matching text is built from the *truncated*
description, not the full upstream value — a listing whose description
contains `"foreclosure"` only after character 500 is NOT selected by the
distress classifier, although the lower-cased full upstream text does
contain the keyword. -/
theorem distress_misses_keyword_beyond_truncation :
    strContains (pyLower longDesc) "foreclosure" = true ∧
    extract_distress_signals refNow [.obj [("description", Json.str longDesc)]] = .ok [] := by
  constructor
  · rfl
  · rfl

/-! ## C6 — matched keywords -/

theorem extract_distress_mem {now : DateTime} {props : List Json} {out : List Lead}
    (h : extract_distress_signals now props = .ok out) :
    ∀ l ∈ out, ∃ n, l = tagDistress n ∧ (matchedKeywords n).isEmpty = false := by
  induction props generalizing out with
  | nil =>
    cases h
    intro l hl
    cases hl
  | cons p ps ih =>
    cases hn : normalize_property now p with
    | error e =>
      unfold extract_distress_signals at h
      rw [hn] at h
      cases h
    | ok n =>
      cases hr : extract_distress_signals now ps with
      | error e =>
        unfold extract_distress_signals at h
        rw [hn, hr] at h
        cases h
      | ok rest =>
        rw [extract_distress_cons_ok hn hr] at h
        cases hm : (matchedKeywords n).isEmpty with
        | true =>
          rw [hm] at h
          simp only [if_true] at h
          cases h
          exact ih hr
        | false =>
          rw [hm] at h
          simp only [Bool.false_eq_true, if_false] at h
          cases h
          intro l hl
          rcases List.mem_cons.mp hl with hl | hl
          · exact ⟨n, hl, hm⟩
          · exact ih hr l hl

/-- The estate-sale example listing of C6. -/
def estateProp : Json := .obj [("description", Json.str "Estate Sale - Motivated Seller")]

/-- The distress classification of the estate-sale example. -/
def estateOut : List Lead :=
  (extract_distress_signals refNow [estateProp]).toOption.getD []

/-- C6: every record produced by distress classification carries
`signal = "DISTRESS"` and a nonempty `matched_keywords` that is a sublist of
the configured keyword list (hence in fixed keyword-list order, each keyword
at most once — the keyword list itself has no duplicates), and
`matched_keywords = [] ↔ signal ≠ "DISTRESS"` holds for it; concretely, the
text `"Estate Sale - Motivated Seller"` matches exactly
`["motivated", "estate sale"]`, in keyword-list order. -/
theorem matched_keywords_order_dedup_iff :
    (∀ now props out, extract_distress_signals now props = .ok out →
      ∀ l ∈ out, l.signal = "DISTRESS" ∧ l.matched_keywords ≠ [] ∧
        l.matched_keywords.Sublist DISTRESS_KEYWORDS ∧ l.matched_keywords.Nodup ∧
        (l.matched_keywords = [] ↔ l.signal ≠ "DISTRESS")) ∧
    DISTRESS_KEYWORDS.Nodup ∧
    (extract_distress_signals refNow [estateProp]).map
        (fun ls => ls.map (fun l => l.matched_keywords)) =
      .ok [["motivated", "estate sale"]] := by
  have hnd : DISTRESS_KEYWORDS.Nodup := by decide
  refine ⟨?_, hnd, rfl⟩
  intro now props out h l hl
  obtain ⟨n, hln, hm⟩ := extract_distress_mem h l hl
  subst hln
  have hne : matchedKeywords n ≠ [] := by
    intro hc
    rw [hc] at hm
    exact Bool.noConfusion hm
  have hsub : (matchedKeywords n).Sublist DISTRESS_KEYWORDS := List.filter_sublist _
  refine ⟨rfl, hne, hsub, hsub.nodup hnd, ?_⟩
  constructor
  · intro hc
    exact absurd hc hne
  · intro hc
    exact absurd rfl hc

/-- C6 witness: concrete application at the estate-sale listing. -/
theorem matched_keywords_order_dedup_iff_witness :
    extract_distress_signals refNow [estateProp] = .ok estateOut ∧
    ∀ l ∈ estateOut, l.signal = "DISTRESS" ∧ l.matched_keywords ≠ [] ∧
      l.matched_keywords.Sublist DISTRESS_KEYWORDS ∧ l.matched_keywords.Nodup ∧
      (l.matched_keywords = [] ↔ l.signal ≠ "DISTRESS") := by
  have h : extract_distress_signals refNow [estateProp] = .ok estateOut := rfl
  exact ⟨h, fun l hl => matched_keywords_order_dedup_iff.1 refNow [estateProp] estateOut h l hl⟩

/-! ## C4 — the stale classifier -/

/-- Specification-side stable descending insertion by integer key. -/
def insInt (x : Lead) : List Lead → List Lead
  | [] => [x]
  | y :: ys => if jInt (daysKey x) < jInt (daysKey y) then y :: insInt x ys else x :: y :: ys

/-- Specification-side stable descending insertion sort by integer key. -/
def sortInt : List Lead → List Lead
  | [] => []
  | x :: xs => insInt x (sortInt xs)

/-- The stale selection: the normalized listings with
`days_on_market ≥ d`, in input order, tagged `"STALE"`. -/
def staleSelect (ns : List NormalizedListing) (d : Int) : List Lead :=
  (ns.filter (fun n => decide (d ≤ jInt n.days_on_market))).map tagStale

theorem insInt_perm (x : Lead) (l : List Lead) : (insInt x l).Perm (x :: l) := by
  induction l with
  | nil => exact List.Perm.refl _
  | cons y ys ih =>
    unfold insInt
    split
    · exact (ih.cons y).trans (List.Perm.swap x y ys)
    · exact List.Perm.refl _

theorem sortInt_perm (l : List Lead) : (sortInt l).Perm l := by
  induction l with
  | nil => exact List.Perm.refl _
  | cons x xs ih => exact (insInt_perm x (sortInt xs)).trans (ih.cons x)

theorem insInt_sorted (x : Lead) (l : List Lead)
    (h : l.Pairwise (fun a b => jInt (daysKey b) ≤ jInt (daysKey a))) :
    (insInt x l).Pairwise (fun a b => jInt (daysKey b) ≤ jInt (daysKey a)) := by
  induction l with
  | nil => simp [insInt]
  | cons y ys ih =>
    rcases List.pairwise_cons.mp h with ⟨hy, hys⟩
    unfold insInt
    split
    · next hlt =>
      refine List.pairwise_cons.mpr ⟨?_, ih hys⟩
      intro b hb
      rcases List.mem_cons.mp ((insInt_perm x ys).mem_iff.mp hb) with rfl | hb
      · exact le_of_lt hlt
      · exact hy b hb
    · next hge =>
      refine List.pairwise_cons.mpr ⟨?_, h⟩
      intro b hb
      rcases List.mem_cons.mp hb with rfl | hb
      · exact le_of_not_lt hge
      · exact le_trans (hy b hb) (le_of_not_lt hge)

theorem sortInt_sorted (l : List Lead) :
    (sortInt l).Pairwise (fun a b => jInt (daysKey b) ≤ jInt (daysKey a)) := by
  induction l with
  | nil => exact List.Pairwise.nil
  | cons x xs ih => exact insInt_sorted x (sortInt xs) ih

theorem insInt_stable (x : Lead) (l : List Lead) (v : Int) :
    (insInt x l).filter (fun a => decide (jInt (daysKey a) = v)) =
      (x :: l).filter (fun a => decide (jInt (daysKey a) = v)) := by
  induction l with
  | nil => rfl
  | cons y ys ih =>
    unfold insInt
    split
    · next hlt =>
      rw [List.filter_cons, ih]
      by_cases hx : jInt (daysKey x) = v
      · have hy : ¬ jInt (daysKey y) = v := by
          intro hc
          rw [hx, hc] at hlt
          exact lt_irrefl v hlt
        simp [hx, hy, List.filter_cons]
      · simp [hx, List.filter_cons]
    · next hge => rfl

theorem sortInt_stable (l : List Lead) (v : Int) :
    (sortInt l).filter (fun a => decide (jInt (daysKey a) = v)) =
      l.filter (fun a => decide (jInt (daysKey a) = v)) := by
  induction l with
  | nil => rfl
  | cons x xs ih =>
    unfold sortInt
    rw [insInt_stable, List.filter_cons, List.filter_cons, ih]

theorem pyLt_int {a b : Json} (ha : isIntB a = true) (hb : isIntB b = true) :
    pyLt a b = .ok (decide (jInt a < jInt b)) := by
  cases a <;> cases b <;> first | rfl | exact Bool.noConfusion ha | exact Bool.noConfusion hb

theorem pyGeInt_int {a : Json} (ha : isIntB a = true) (d : Int) :
    pyGeInt a d = .ok (decide (d ≤ jInt a)) := by
  cases a <;> first | rfl | exact Bool.noConfusion ha

theorem insertDesc_eq_insInt (x : Lead) (l : List Lead)
    (hx : isIntB (daysKey x) = true) (hl : ∀ y ∈ l, isIntB (daysKey y) = true) :
    insertDesc x l = .ok (insInt x l) := by
  induction l with
  | nil => rfl
  | cons y ys ih =>
    have hy := hl y (List.mem_cons_self y ys)
    have hys : ∀ z ∈ ys, isIntB (daysKey z) = true :=
      fun z hz => hl z (List.mem_cons_of_mem y hz)
    unfold insertDesc insInt
    rw [pyLt_int hx hy]
    by_cases hlt : jInt (daysKey x) < jInt (daysKey y)
    · simp [hlt, ih hys]
    · simp [hlt]

theorem sortLeadsDesc_eq_sortInt (l : List Lead)
    (h : ∀ y ∈ l, isIntB (daysKey y) = true) :
    sortLeadsDesc l = .ok (sortInt l) := by
  induction l with
  | nil => rfl
  | cons x xs ih =>
    have hx := h x (List.mem_cons_self x xs)
    have hxs : ∀ y ∈ xs, isIntB (daysKey y) = true :=
      fun y hy => h y (List.mem_cons_of_mem x hy)
    unfold sortLeadsDesc sortInt
    rw [ih hxs]
    exact insertDesc_eq_insInt x (sortInt xs) hx
      (fun y hy => hxs y ((sortInt_perm xs).mem_iff.mp hy))

theorem extract_stale_cons_ok {now : DateTime} {p : Json} {ps : List Json} {d : Int}
    {n : NormalizedListing} {keep : Bool} {rest : List Lead}
    (hn : normalize_property now p = .ok n)
    (hk : pyGeInt n.days_on_market d = .ok keep)
    (hr : extract_stale_leads now ps d = .ok rest) :
    extract_stale_leads now (p :: ps) d =
      if keep then .ok (tagStale n :: rest) else .ok rest := by
  simp only [extract_stale_leads, hn, hk, hr]
  rfl

theorem extract_stale_eq_filter :
    ∀ (now : DateTime) (props : List Json) (d : Int) (ns : List NormalizedListing),
      normalizeAll now props = .ok ns →
      (∀ n ∈ ns, isIntB n.days_on_market = true) →
      extract_stale_leads now props d = .ok (staleSelect ns d) := by
  intro now props d
  induction props with
  | nil =>
    intro ns h _
    cases h
    rfl
  | cons p ps ih =>
    intro ns h hint
    unfold normalizeAll at h
    cases hn : normalize_property now p with
    | error e => rw [hn] at h; cases h
    | ok n =>
      rw [hn] at h
      cases hr : normalizeAll now ps with
      | error e => rw [hr] at h; cases h
      | ok ns' =>
        rw [hr] at h
        cases h
        have hn_int := hint n (List.mem_cons_self n ns')
        have hint' : ∀ m ∈ ns', isIntB m.days_on_market = true :=
          fun m hm => hint m (List.mem_cons_of_mem n hm)
        rw [extract_stale_cons_ok hn (pyGeInt_int hn_int d) (ih ns' hr hint')]
        by_cases hd : d ≤ jInt n.days_on_market
        · simp [hd, staleSelect, List.filter_cons]
        · simp [hd, staleSelect, List.filter_cons]

/-- C4 (amended): for every input whose listings normalize successfully with
*integer* `days_on_market` values and every threshold `d`, the stale
classifier (`extract_stale_leads` followed by the route's descending sort)
returns exactly the normalized listings with `days_on_market ≥ d`, each
tagged `"STALE"`: the output is a permutation of that selection, sorted by
`days_on_market` descending, and stable — for every key value the output
preserves the selection's (= input) order.  (Listings with non-integer days
values make the classifier raise instead — see the counterexample.) -/
theorem stale_classifier_filters_and_sorts_stable :
    ∀ (now : DateTime) (props : List Json) (d : Int) (ns : List NormalizedListing),
      normalizeAll now props = .ok ns →
      (∀ n ∈ ns, isIntB n.days_on_market = true) →
      ∃ l, find_stale now props d = .ok l ∧
        l.Perm (staleSelect ns d) ∧
        l.Pairwise (fun a b => jInt (daysKey b) ≤ jInt (daysKey a)) ∧
        ∀ v : Int, l.filter (fun a => decide (jInt (daysKey a) = v)) =
          (staleSelect ns d).filter (fun a => decide (jInt (daysKey a) = v)) := by
  intro now props d ns h hint
  have hsel : ∀ y ∈ staleSelect ns d, isIntB (daysKey y) = true := by
    intro y hy
    obtain ⟨n, hn, rfl⟩ := List.mem_map.mp hy
    exact hint n (List.mem_of_mem_filter hn)
  refine ⟨sortInt (staleSelect ns d), ?_, ?_, sortInt_sorted _, fun v => sortInt_stable _ v⟩
  · unfold find_stale
    rw [extract_stale_eq_filter now props d ns h hint]
    exact sortLeadsDesc_eq_sortInt _ hsel
  · exact sortInt_perm _

/-- The four-listing input used by the C4 witness (two listings share the
key 100, so stability is exercised). -/
def staleDemoProps : List Json :=
  [.obj [("property_id", Json.str "A"), ("days_on_market", .int 100)],
   .obj [("property_id", Json.str "B"), ("days_on_market", .int 200)],
   .obj [("property_id", Json.str "C"), ("days_on_market", .int 100)],
   .obj [("property_id", Json.str "D"), ("days_on_market", .int 150)]]

/-- The normalizations of `staleDemoProps`. -/
def staleDemoNorms : List NormalizedListing :=
  (normalizeAll refNow staleDemoProps).toOption.getD []

/-- C4 witness: concrete application of the classifier theorem. -/
theorem stale_classifier_witness :
    ∃ l, find_stale refNow staleDemoProps 90 = .ok l ∧
      l.Perm (staleSelect staleDemoNorms 90) ∧
      l.Pairwise (fun a b => jInt (daysKey b) ≤ jInt (daysKey a)) ∧
      ∀ v : Int, l.filter (fun a => decide (jInt (daysKey a) = v)) =
        (staleSelect staleDemoNorms 90).filter (fun a => decide (jInt (daysKey a) = v)) := by
  refine stale_classifier_filters_and_sorts_stable refNow staleDemoProps 90 staleDemoNorms rfl ?_
  intro n hn
  fin_cases hn <;> rfl

/-- C4 counterexample: the classifier is not total over arbitrary raw
listings — a truthy *string* days value (`"45 days"`) reaches the Python
comparison `str >= int` and raises `TypeError`, so for this input the
output is not the selected subset (there is no output at all). -/
theorem stale_classifier_raises_on_string_days :
    find_stale refNow [.obj [("days_on_market", Json.str "45 days")]] 0 =
      .error .typeError := rfl

/-! ## C7 — hot leads are the id intersection -/

theorem bool_eq_of_iff {a b : Bool} (h : a = true ↔ b = true) : a = b := by
  cases a <;> cases b <;> simp_all

theorem pyEq_elim {a b : Json} (h : pyEq a b = true) :
    ∃ k, pyKey a = some k ∧ pyKey b = some k := by
  unfold pyEq at h
  cases ha : pyKey a with
  | none => rw [ha] at h; cases h
  | some x =>
    rw [ha] at h
    cases hb : pyKey b with
    | none => rw [hb] at h; cases h
    | some y =>
      rw [hb] at h
      have hxy : x = y := of_decide_eq_true h
      subst hxy
      exact ⟨x, rfl, rfl⟩

theorem pyEq_intro {a b : Json} {k} (ha : pyKey a = some k) (hb : pyKey b = some k) :
    pyEq a b = true := by
  unfold pyEq
  rw [ha, hb]
  simp

theorem pyEq_symm {a b : Json} (h : pyEq a b = true) : pyEq b a = true := by
  obtain ⟨k, ha, hb⟩ := pyEq_elim h
  exact pyEq_intro hb ha

theorem pyEq_trans {a b c : Json} (h1 : pyEq a b = true) (h2 : pyEq b c = true) :
    pyEq a c = true := by
  obtain ⟨k, ha, hb⟩ := pyEq_elim h1
  obtain ⟨k', hb', hc⟩ := pyEq_elim h2
  rw [hb] at hb'
  cases hb'
  exact pyEq_intro ha hc

/-- Truthiness of a hashable value as a function of its key (`None`, `0`,
`False` and `""` are falsy). -/
def truthyKey : Option (Int ⊕ String) → Bool
  | none => false
  | some (.inl n) => n != 0
  | some (.inr s) => decide (s.data ≠ [])

theorem truthy_pyKey {a : Json} {k : Option (Int ⊕ String)} (h : pyKey a = some k) :
    truthy a = truthyKey k := by
  cases a with
  | null => cases h; rfl
  | bool b => cases h; cases b <;> rfl
  | int n => cases h; rfl
  | str s => cases h; rfl
  | arr xs => cases h
  | obj kvs => cases h

theorem pyEq_truthy {a b : Json} (h : pyEq a b = true) : truthy a = truthy b := by
  obtain ⟨k, ha, hb⟩ := pyEq_elim h
  rw [truthy_pyKey ha, truthy_pyKey hb]

theorem memEq_congr {s : List Json} {v w : Json} (h : pyEq v w = true) :
    memEq s v = memEq s w := by
  unfold memEq
  induction s with
  | nil => rfl
  | cons u us ih =>
    simp only [List.any_cons]
    rw [ih]
    have heq : pyEq u v = pyEq u w := by
      cases huv : pyEq u v with
      | true => exact (pyEq_trans huv h).symm
      | false =>
        cases huw : pyEq u w with
        | true =>
          have : pyEq u v = true := pyEq_trans huw (pyEq_symm h)
          rw [huv] at this
          exact Bool.noConfusion this
        | false => rfl
    rw [heq]

theorem memEq_elim {s : List Json} {v : Json} (h : memEq s v = true) :
    ∃ w ∈ s, pyEq w v = true := by
  unfold memEq at h
  simpa using List.any_eq_true.mp h

theorem memEq_intro {s : List Json} {v w : Json} (hw : w ∈ s) (h : pyEq w v = true) :
    memEq s v = true := by
  unfold memEq
  exact List.any_eq_true.mpr ⟨w, hw, h⟩

theorem memEq_pySetAdd {s : List Json} {x v : Json} :
    memEq (pySetAdd s x) v = (memEq s v || pyEq x v) := by
  unfold pySetAdd
  by_cases hm : memEq s x = true
  · rw [if_pos hm]
    cases hxv : pyEq x v with
    | false => simp
    | true =>
      have hv : memEq s v = true := by
        rw [← memEq_congr hxv]
        exact hm
      simp [hv]
  · rw [if_neg hm]
    simp [memEq, List.any_append]

theorem memEq_pySetOf_go (v : Json) :
    ∀ (vs : List Json) (acc s : List Json), pySetOf.go acc vs = .ok s →
      memEq s v = (memEq acc v || memEq vs v) := by
  intro vs
  induction vs with
  | nil =>
    intro acc s h
    cases h
    simp [memEq]
  | cons u us ih =>
    intro acc s h
    unfold pySetOf.go at h
    by_cases hh : (pyKey u).isSome = true
    · rw [if_pos hh] at h
      rw [ih _ _ h, memEq_pySetAdd]
      show ((memEq acc v || pyEq u v) || memEq us v) = (memEq acc v || memEq (u :: us) v)
      simp only [memEq, List.any_cons]
      rw [Bool.or_assoc]
    · rw [if_neg hh] at h
      cases h

theorem memEq_pySetOf {vs s : List Json} {v : Json} (h : pySetOf vs = .ok s) :
    memEq s v = memEq vs v := by
  have h2 := memEq_pySetOf_go v vs [] s h
  simpa [memEq] using h2

theorem memEq_filter_truthy (l : List Json) (v : Json) :
    memEq (l.filter truthy) v = (truthy v && memEq l v) := by
  apply bool_eq_of_iff
  constructor
  · intro h
    obtain ⟨w, hw, hwv⟩ := memEq_elim h
    obtain ⟨hws, hwt⟩ := List.mem_filter.mp hw
    have htv : truthy v = true := by rw [← pyEq_truthy hwv]; exact hwt
    rw [Bool.and_eq_true]
    exact ⟨htv, memEq_intro hws hwv⟩
  · intro h
    rw [Bool.and_eq_true] at h
    obtain ⟨htv, hm⟩ := h
    obtain ⟨w, hws, hwv⟩ := memEq_elim hm
    have hwt : truthy w = true := by rw [pyEq_truthy hwv]; exact htv
    exact memEq_intro (List.mem_filter.mpr ⟨hws, hwt⟩) hwv

theorem memEq_filter_inter (s t : List Json) (v : Json) :
    memEq (s.filter (fun w => memEq t w)) v = (memEq s v && memEq t v) := by
  apply bool_eq_of_iff
  constructor
  · intro h
    obtain ⟨w, hw, hwv⟩ := memEq_elim h
    obtain ⟨hws, hwt⟩ := List.mem_filter.mp hw
    rw [Bool.and_eq_true]
    refine ⟨memEq_intro hws hwv, ?_⟩
    rw [← memEq_congr hwv]
    exact hwt
  · intro h
    rw [Bool.and_eq_true] at h
    obtain ⟨hsv, htv⟩ := h
    obtain ⟨w, hws, hwv⟩ := memEq_elim hsv
    have hwt : memEq t w = true := by
      rw [memEq_congr hwv]
      exact htv
    exact memEq_intro (List.mem_filter.mpr ⟨hws, hwt⟩) hwv

/-- The two-listing input of C7's end-to-end example: the first is 120 days
on market with distress text `"bank owned"`, the second is 10 days on market
with no distress keywords. -/
def hotDemoProps : List Json :=
  [.obj [("property_id", Json.str "L1"), ("days_on_market", .int 120),
         ("description", Json.str "bank owned home")],
   .obj [("property_id", Json.str "L2"), ("days_on_market", .int 10)]]

/-- C7: in `combined_search`, membership in `hot_lead_ids` is exactly —
up to Python equality — truthiness of the identifier (listings lacking an
identifier are excluded) together with membership among the stale leads'
identifiers and among the distress leads' identifiers; and the end-to-end
two-listing example with threshold 90 reports summary counts
`stale = 1`, `distress = 1`, `hot = 1` with `hot_lead_ids = ["L1"]`. -/
theorem hot_ids_are_id_intersection :
    (∀ now props d res, combined_search now props d = .ok res →
      ∀ v, memEq res.hot_lead_ids v =
        (truthy v && memEq (res.stale_leads.map (fun l => l.listing.id)) v
                  && memEq (res.distress_leads.map (fun l => l.listing.id)) v)) ∧
    (combined_search refNow hotDemoProps 90).map
      (fun r => (r.summary_stale, r.summary_distress, r.summary_hot, r.hot_lead_ids)) =
      .ok (1, 1, 1, [.str "L1"]) := by
  refine ⟨?_, rfl⟩
  intro now props d res h
  unfold combined_search at h
  cases h0 : extract_stale_leads now props d with
  | error e => rw [h0] at h; cases h
  | ok stale0 =>
    simp only [h0] at h
    cases h1 : extract_distress_signals now props with
    | error e => simp only [h1] at h; cases h
    | ok distress =>
      simp only [h1] at h
      cases h2 : sortLeadsDesc stale0 with
      | error e => simp only [h2] at h; cases h
      | ok stale =>
        simp only [h2] at h
        cases h3 : pySetOf ((stale.map (fun l => l.listing.id)).filter truthy) with
        | error e => simp only [h3] at h; cases h
        | ok stale_ids =>
          simp only [h3] at h
          cases h4 : pySetOf ((distress.map (fun l => l.listing.id)).filter truthy) with
          | error e => simp only [h4] at h; cases h
          | ok distress_ids =>
            simp only [h4] at h
            cases h
            intro v
            dsimp only
            rw [memEq_filter_inter, memEq_pySetOf h3, memEq_pySetOf h4,
              memEq_filter_truthy, memEq_filter_truthy]
            cases truthy v <;>
              cases memEq (stale.map (fun l => l.listing.id)) v <;>
              cases memEq (distress.map (fun l => l.listing.id)) v <;> rfl

/-- C7 witness: concrete application of the characterization at the
end-to-end example and the identifier `"L1"`. -/
theorem hot_ids_are_id_intersection_witness :
    ∃ res, combined_search refNow hotDemoProps 90 = .ok res ∧
      memEq res.hot_lead_ids (Json.str "L1") =
        (truthy (Json.str "L1") &&
          memEq (res.stale_leads.map (fun l => l.listing.id)) (Json.str "L1") &&
          memEq (res.distress_leads.map (fun l => l.listing.id)) (Json.str "L1")) := by
  refine ⟨_, rfl, ?_⟩
  exact hot_ids_are_id_intersection.1 refNow hotDemoProps 90 _ rfl (Json.str "L1")

end StaleEngine
